import Mathlib

/-!
Verification development for the staff-pay automation core
(unpaid-work selection, rate resolution, payment aggregation,
invoice-batch building, and the invoiced-status write-back).

The definitions below are a shallow embedding of the JavaScript source
(`Code.js`).  JavaScript objects used as string-keyed maps are embedded
as association lists in insertion order (lookup returns the first match,
creation appends at the end), JavaScript `Set` is embedded as a
duplicate-free insertion-ordered list, sheet cell values are strings
(a missing or blank cell is the empty string, which compares unequal to
the sentinels exactly as `undefined` does in the source), and rates are
integers.  JavaScript truthiness tests on looked-up values are embedded
explicitly: a looked-up number is truthy when it is present and nonzero,
a looked-up string is truthy when it is present and nonempty, and a
looked-up object is truthy when it is present.
-/

namespace StaffPayer

/-- One data row of the MASTER work-log sheet, restricted to the columns
the core reads.  List position `i` in a ledger corresponds to `data[i]`
in the source (positions 0 and 1 are the header rows); the 1-based sheet
row number is the position plus one. -/
structure MasterRow where
  assign : String
  statsLevel : String
  league : String
  round : String
  team1 : String
  team2 : String
  playbackLink : String
  doneDate : String
  status : String
  paid : String
deriving Repr, DecidableEq

/-- A selected unpaid work item, as built by `getUnpaidWorkFromMaster`
(`rowIndex` is the 1-based sheet row number `i + 1`). -/
structure WorkItem where
  rowIndex : Nat
  staffName : String
  taskType : String
  league : String
  round : String
  team1 : String
  team2 : String
  playbackLink : String
  doneDate : String
deriving Repr, DecidableEq

/-- The eligibility test of the selector loop:
`status === 'Done' && paid !== 'Paid' && paid !== 'Invoiced'`. -/
def isEligible (r : MasterRow) : Bool :=
  r.status == "Done" && r.paid != "Paid" && r.paid != "Invoiced"

/-- The work-item record pushed by the selector for eligible row `data[i]`. -/
def toWorkItem (i : Nat) (r : MasterRow) : WorkItem :=
  { rowIndex := i + 1
    staffName := r.assign
    taskType := r.statsLevel
    league := r.league
    round := r.round
    team1 := r.team1
    team2 := r.team2
    playbackLink := r.playbackLink
    doneDate := r.doneDate }

/-- The selector loop `for (let i = 2; i < data.length; i++)`, carrying the
current index `i`. -/
def unpaidAux : Nat → List MasterRow → List WorkItem
  | _, [] => []
  | i, r :: rest =>
    if isEligible r then toWorkItem i r :: unpaidAux (i + 1) rest
    else unpaidAux (i + 1) rest

/-- `getUnpaidWorkFromMaster`: scan the ledger from row index 2 (the first
data row, after the two header rows) and collect the eligible rows. -/
def getUnpaidWorkFromMaster (data : List MasterRow) : List WorkItem :=
  unpaidAux 2 (data.drop 2)

/-- Lookup in a JavaScript object embedded as an association list
(first match wins; absent key gives `none`, the embedding of `undefined`). -/
def alookup {α : Type} : List (String × α) → String → Option α
  | [], _ => none
  | p :: rest, k => if p.1 = k then some p.2 else alookup rest k

/-- In-place update of the (first) entry with the given key. -/
def updateEntry {α : Type} : List (String × α) → String → (α → α) → List (String × α)
  | [], _, _ => []
  | p :: rest, k, f => if p.1 = k then (p.1, f p.2) :: rest else p :: updateEntry rest k f

/-- `Set.add`: insertion-ordered, duplicate-free. -/
def setAdd (l : List String) (s : String) : List String :=
  if s ∈ l then l else l ++ [s]

/-- JavaScript truthiness of a looked-up string value
(`undefined` and the empty string are falsy). -/
def truthyStr (o : Option String) : Bool :=
  match o with
  | some s => s != ""
  | none => false

/-- One row group of the Pay Config sheet: the default rate for a task type
plus its per-staff custom-rate object. -/
structure PayEntry where
  defaultRate : Int
  customRates : List (String × Int)
deriving Repr, DecidableEq

/-- The rate resolution of `calculatePayments`:
`if (payConfig[taskType]) { if (payConfig[taskType].customRates[staffKey]) ... }`.
The custom-rate branch is taken exactly when the lookup is truthy, i.e.
present and nonzero. -/
def resolveRate (payConfig : List (String × PayEntry)) (taskType staffKey : String) :
    Int × String :=
  match alookup payConfig taskType with
  | some entry =>
    match alookup entry.customRates staffKey with
    | some c => if c ≠ 0 then (c, "custom") else (entry.defaultRate, "default")
    | none => (entry.defaultRate, "default")
  | none => (0, "none")

/-- `const legalName = staffMapping[staffKey] || staffKey`. -/
def resolveLegalName (staffMapping : List (String × String)) (staffKey : String) : String :=
  match alookup staffMapping staffKey with
  | some s => if s ≠ "" then s else staffKey
  | none => staffKey

/-- A task stored in a payment record: the work item together with its
resolved rate, rate source and validity flag (the source spreads the work
fields into the task object; the embedding keeps them in the `work` field). -/
structure PaymentTask where
  work : WorkItem
  rate : Int
  rateSource : String
  hasValidRate : Bool
deriving Repr, DecidableEq

/-- One aggregated payment record (one per resolved legal name). -/
structure PaymentRecord where
  staffKey : String
  legalName : String
  hasMapping : Bool
  tasks : List PaymentTask
  totalAmount : Int
deriving Repr, DecidableEq

/-- One entry of `errors.tasksWithNoRate`. -/
structure NoRateTask where
  staffName : String
  taskType : String
  league : String
  round : String
  teams : String
deriving Repr, DecidableEq

/-- The three error collections accumulated by `calculatePayments`. -/
structure CalcErrors where
  unmatchedTaskTypes : List String
  unmatchedStaffKeys : List String
  tasksWithNoRate : List NoRateTask
deriving Repr, DecidableEq

/-- The result of `calculatePayments`: the payments object (keyed by legal
name, in insertion order) and the error collections. -/
structure CalcState where
  payments : List (String × PaymentRecord)
  errors : CalcErrors
deriving Repr, DecidableEq

/-- The descriptive record pushed onto `errors.tasksWithNoRate` for a work
item whose task type has no rate entry. -/
def noRateRec (work : WorkItem) : NoRateTask :=
  { staffName := work.staffName
    taskType := work.taskType
    league := work.league
    round := work.round
    teams := work.team1 ++ " vs " ++ work.team2 }

/-- The task object pushed for a work item (`{ ...work, rate, rateSource,
hasValidRate: rate > 0 }`). -/
def mkTask (payConfig : List (String × PayEntry)) (work : WorkItem) : PaymentTask :=
  let rr := resolveRate payConfig work.taskType work.staffName
  { work := work, rate := rr.1, rateSource := rr.2, hasValidRate := decide (0 < rr.1) }

/-- `payments[legalName].tasks.push(task); payments[legalName].totalAmount += rate`. -/
def appendTask (task : PaymentTask) (rate : Int) (p : PaymentRecord) : PaymentRecord :=
  { p with tasks := p.tasks ++ [task], totalAmount := p.totalAmount + rate }

/-- The body of the `workLogData.forEach(work => ...)` loop of
`calculatePayments`, processing one work item. -/
def calcStep (payConfig : List (String × PayEntry)) (staffMapping : List (String × String))
    (st : CalcState) (work : WorkItem) : CalcState :=
  let staffKey := work.staffName
  let taskType := work.taskType
  let errs1 :=
    if truthyStr (alookup staffMapping staffKey) then st.errors
    else { st.errors with unmatchedStaffKeys := setAdd st.errors.unmatchedStaffKeys staffKey }
  let rr := resolveRate payConfig taskType staffKey
  let errs2 :=
    if (alookup payConfig taskType).isSome then errs1
    else { errs1 with
           unmatchedTaskTypes := setAdd errs1.unmatchedTaskTypes taskType
           tasksWithNoRate := errs1.tasksWithNoRate ++ [noRateRec work] }
  let legalName := resolveLegalName staffMapping staffKey
  let task := mkTask payConfig work
  let base :=
    if (alookup st.payments legalName).isSome then st.payments
    else st.payments ++ [(legalName,
      { staffKey := staffKey
        legalName := legalName
        hasMapping := truthyStr (alookup staffMapping staffKey)
        tasks := []
        totalAmount := 0 })]
  { payments := updateEntry base legalName (appendTask task rr.1)
    errors := errs2 }

/-- `calculatePayments(workLogData, payConfig, staffMapping)`. -/
def calculatePayments (workLogData : List WorkItem) (payConfig : List (String × PayEntry))
    (staffMapping : List (String × String)) : CalcState :=
  workLogData.foldl (calcStep payConfig staffMapping)
    { payments := []
      errors := { unmatchedTaskTypes := [], unmatchedStaffKeys := [], tasksWithNoRate := [] } }

/-- All tasks stored across the payment records, in record order. -/
def tasksOf (ps : List (String × PaymentRecord)) : List PaymentTask :=
  (ps.map (fun p => p.2.tasks)).flatten

/-- `Object.values(payments).reduce((sum, p) => sum + p.totalAmount, 0)`. -/
def amountOf (ps : List (String × PaymentRecord)) : Int :=
  (ps.map (fun p => p.2.totalAmount)).sum

/-! ### Invoice-batch builder (`createInvoice`) -/

/-- One row written to the Invoicing sheet (the named columns the source
populates; `date` stands for the timestamp cell). -/
structure InvoiceRow where
  invoiceNumber : String
  date : String
  contractor : String
  workDone : String
  total : Int
  playbackLinks : String
deriving Repr, DecidableEq

/-- Group a payment's tasks by task type, in insertion order of the first
occurrence of each type (the `tasksByType` object of the source). -/
def tasksByType (tasks : List PaymentTask) : List (String × List PaymentTask) :=
  tasks.foldl
    (fun g t =>
      if (alookup g t.work.taskType).isSome
      then updateEntry g t.work.taskType (fun l => l ++ [t])
      else g ++ [(t.work.taskType, [t])])
    []

/-- The "{count} x {taskType}" work summary, one line per task type. -/
def workDoneSummary (tasks : List PaymentTask) : String :=
  String.intercalate "\n"
    ((tasksByType tasks).map (fun g => toString g.2.length ++ " x " ++ g.1))

/-- The grouped evidence-link block: per task type a header with the count,
then a numbered list of each task's playback link. -/
def playbackLinksText (tasks : List PaymentTask) : String :=
  String.intercalate "\n\n"
    ((tasksByType tasks).map (fun g =>
      g.1 ++ " (" ++ toString g.2.length ++ " tasks):" ++ "\n" ++
      String.intercalate "\n"
        ((List.enumFrom 1 g.2).map (fun p =>
          "  " ++ toString p.1 ++ ". " ++ p.2.work.playbackLink))))

/-- `String(n).padStart(3, '0')`. -/
def padStart3 (s : String) : String :=
  if s.length < 3 then String.mk (List.replicate (3 - s.length) '0') ++ s else s

/-- The invoice row emitted for one payment record. -/
def mkInvoiceRow (invoiceNumber issuedAt : String) (payment : PaymentRecord) : InvoiceRow :=
  { invoiceNumber := invoiceNumber
    date := issuedAt
    contractor := payment.legalName
    workDone := workDoneSummary payment.tasks
    total := payment.totalAmount
    playbackLinks := playbackLinksText payment.tasks }

/-- What one `createInvoice` invocation produces: the rows written to the
Invoicing sheet plus the metadata object it returns. -/
structure InvoiceResult where
  rows : List InvoiceRow
  invoiceNumber : String
  invoiceDate : String
  rowsCreated : Nat
deriving Repr, DecidableEq

/-- `createInvoice(payments)`.  The timestamp, its `yyyyMMdd` rendering and
the random draw `Math.floor(Math.random() * 1000)` are environment inputs,
passed as the `issuedAt`, `dateStr` and `rand` parameters.  A single
invoice number is generated before the loop and used for every row. -/
def createInvoice (payments : List (String × PaymentRecord))
    (issuedAt dateStr : String) (rand : Nat) : InvoiceResult :=
  let invoiceNumber := "INV-" ++ dateStr ++ "-" ++ padStart3 (toString rand)
  let rows := payments.map (fun p => mkInvoiceRow invoiceNumber issuedAt p.2)
  { rows := rows
    invoiceNumber := invoiceNumber
    invoiceDate := issuedAt
    rowsCreated := rows.length }

/-! ### Ledger write-back and the commit / preview entry points -/

/-- The per-item ledger write: `setValue('Invoiced')` on the Paid column. -/
def setInvoiced (r : MasterRow) : MasterRow :=
  { r with paid := "Invoiced" }

/-- Replace the element at a 0-based position, leaving the rest unchanged
(writing one cell of one sheet row). -/
def modifyAt {α : Type} : List α → Nat → (α → α) → List α
  | [], _, _ => []
  | a :: l, 0, f => f a :: l
  | a :: l, n + 1, f => a :: modifyAt l n f

/-- `markWorkAsInvoiced(workLogData)`: for every passed work item, write
"Invoiced" into the Paid column of its sheet row (1-based `rowIndex`,
hence 0-based position `rowIndex - 1`). -/
def markWorkAsInvoiced (workLogData : List WorkItem) (ledger : List MasterRow) :
    List MasterRow :=
  workLogData.foldl (fun led w => modifyAt led (w.rowIndex - 1) setInvoiced) ledger

/-- The summary object of the commit response. -/
structure CommitSummary where
  totalTasks : Nat
  totalStaff : Nat
  grandTotal : Int
  unmatchedTaskTypes : List String
  unmatchedStaffKeys : List String
  tasksWithNoRate : List NoRateTask
deriving Repr, DecidableEq

/-- The response of `handleCalculatePayRequest`: either the defined
"No unpaid work found" result, a success response with the invoice
metadata, or the caught-error response. -/
inductive CommitResult where
  | noUnpaidWork : CommitResult
  | success : String → List InvoiceRow → CommitSummary → CommitResult
  | failure : String → CommitResult
deriving Repr, DecidableEq

/-- `handleCalculatePayRequest()`: select, aggregate, create the invoice,
then — and only then — mark the selected work as invoiced.  `invoicingOk`
models whether `createInvoice` completes (it throws, for example, when the
Invoicing sheet is missing); a throw is caught by the surrounding
`try`/`catch`, which returns the error response before `markWorkAsInvoiced`
is ever reached.  The second component is the ledger after the call. -/
def handleCalculatePayRequest (payConfig : List (String × PayEntry))
    (staffMapping : List (String × String)) (issuedAt dateStr : String) (rand : Nat)
    (invoicingOk : Bool) (ledger : List MasterRow) : CommitResult × List MasterRow :=
  let workLogData := getUnpaidWorkFromMaster ledger
  if workLogData.isEmpty then (CommitResult.noUnpaidWork, ledger)
  else
    let res := calculatePayments workLogData payConfig staffMapping
    if invoicingOk then
      let inv := createInvoice res.payments issuedAt dateStr rand
      (CommitResult.success inv.invoiceNumber inv.rows
        { totalTasks := workLogData.length
          totalStaff := res.payments.length
          grandTotal := amountOf res.payments
          unmatchedTaskTypes := res.errors.unmatchedTaskTypes
          unmatchedStaffKeys := res.errors.unmatchedStaffKeys
          tasksWithNoRate := res.errors.tasksWithNoRate },
       markWorkAsInvoiced workLogData ledger)
    else (CommitResult.failure "Invoicing sheet not found", ledger)

/-- The result object of the core API function `calculateStaffPay` (`none`
embeds the "No unpaid work found" result). -/
structure StaffPayResult where
  workLogData : List WorkItem
  payments : List (String × PaymentRecord)
  errors : CalcErrors
  totalTasks : Nat
  totalStaff : Nat
  grandTotal : Int
deriving Repr, DecidableEq

/-- `calculateStaffPay()`: the calculation path; computes the payments and
summary without touching the ledger. -/
def calculateStaffPay (payConfig : List (String × PayEntry))
    (staffMapping : List (String × String)) (ledger : List MasterRow) :
    Option StaffPayResult :=
  let workLogData := getUnpaidWorkFromMaster ledger
  if workLogData.isEmpty then none
  else
    let res := calculatePayments workLogData payConfig staffMapping
    some { workLogData := workLogData
           payments := res.payments
           errors := res.errors
           totalTasks := workLogData.length
           totalStaff := res.payments.length
           grandTotal := amountOf res.payments }

/-- A task as re-serialized by the preview response (no `playbackLink`,
no `doneDate`). -/
structure PreviewTask where
  rowIndex : Nat
  staffName : String
  taskType : String
  league : String
  round : String
  team1 : String
  team2 : String
  rate : Int
  rateSource : String
  hasValidRate : Bool
deriving Repr, DecidableEq

/-- A payment record as re-serialized by the preview response (an added
`taskCount` field, tasks reduced to `PreviewTask`). -/
structure PreviewRecord where
  staffKey : String
  legalName : String
  hasMapping : Bool
  totalAmount : Int
  taskCount : Nat
  tasks : List PreviewTask
deriving Repr, DecidableEq

/-- The per-task reshaping of the preview response (the `String(...)` /
`Number(...)` / `Boolean(...)` coercions are identities on the already
well-typed values). -/
def sanitizeTask (t : PaymentTask) : PreviewTask :=
  { rowIndex := t.work.rowIndex
    staffName := t.work.staffName
    taskType := t.work.taskType
    league := t.work.league
    round := t.work.round
    team1 := t.work.team1
    team2 := t.work.team2
    rate := t.rate
    rateSource := t.rateSource
    hasValidRate := t.hasValidRate }

/-- The per-record reshaping of the preview response. -/
def sanitizeRecord (p : PaymentRecord) : PreviewRecord :=
  { staffKey := p.staffKey
    legalName := p.legalName
    hasMapping := p.hasMapping
    totalAmount := p.totalAmount
    taskCount := p.tasks.length
    tasks := p.tasks.map sanitizeTask }

/-- The manually constructed `result.payments` object of the preview
response. -/
def sanitizePayments (ps : List (String × PaymentRecord)) :
    List (String × PreviewRecord) :=
  ps.map (fun p => (p.1, sanitizeRecord p.2))

/-- The body of the preview response (summary plus reshaped payments). -/
structure PreviewResult where
  totalTasks : Nat
  totalStaff : Nat
  grandTotal : Int
  unmatchedTaskTypes : List String
  unmatchedStaffKeys : List String
  tasksWithNoRate : List NoRateTask
  payments : List (String × PreviewRecord)
deriving Repr, DecidableEq

/-- `handleCalculatePayPreviewRequest()`: the preview path; same selection
and aggregation as the commit path, no ledger mutation, and a reshaped
(serialization-safe) payments object in the response. -/
def handleCalculatePayPreviewRequest (payConfig : List (String × PayEntry))
    (staffMapping : List (String × String)) (ledger : List MasterRow) :
    Option PreviewResult :=
  let workLogData := getUnpaidWorkFromMaster ledger
  if workLogData.isEmpty then none
  else
    let res := calculatePayments workLogData payConfig staffMapping
    some { totalTasks := workLogData.length
           totalStaff := res.payments.length
           grandTotal := amountOf res.payments
           unmatchedTaskTypes := res.errors.unmatchedTaskTypes
           unmatchedStaffKeys := res.errors.unmatchedStaffKeys
           tasksWithNoRate := res.errors.tasksWithNoRate
           payments := sanitizePayments res.payments }

/-! ### Concrete fixtures used by witnesses and counterexamples -/

/-- A ledger row with every cell blank. -/
def blankRow : MasterRow :=
  { assign := "", statsLevel := "", league := "", round := "", team1 := "", team2 := ""
    playbackLink := "", doneDate := "", status := "", paid := "" }

/-- A small work-item builder for concrete instances. -/
def mkWork (idx : Nat) (key ttype link : String) : WorkItem :=
  { rowIndex := idx, staffName := key, taskType := ttype, league := "L1", round := "R1"
    team1 := "T1", team2 := "T2", playbackLink := link, doneDate := "2025-01-01" }

/-- A ledger whose only data row is already claimed (Paid). -/
def claimedLedger : List MasterRow :=
  [blankRow, blankRow, { blankRow with assign := "K1", status := "Done", paid := "Paid" }]

/-- A work item pointing at the claimed row of `claimedLedger`. -/
def wPaid : WorkItem := mkWork 3 "K1" "T" "link"

/-- A one-task payment record for the invoice-builder witness. -/
def exRecord : PaymentRecord :=
  { staffKey := "K1"
    legalName := "Alice"
    hasMapping := true
    tasks := [{ work := mkWork 3 "K1" "T" "link", rate := 100, rateSource := "default"
                hasValidRate := true }]
    totalAmount := 100 }

end StaffPayer

namespace StaffPayer

/-- Claim C7: for an item whose taskType is present in the rate table, rate
resolution prefers the custom rate for (taskType, staffKey) when present
(and, as everywhere in the source, truthy, i.e. nonzero — the only custom
rates `getPayConfiguration` ever stores), with rateSource "custom";
otherwise it uses the default rate of the type with rateSource "default". -/
theorem c7_rate_resolution (payConfig : List (String × PayEntry)) (t k : String)
    (entry : PayEntry) (h : alookup payConfig t = some entry) :
    (∀ c : Int, alookup entry.customRates k = some c → c ≠ 0 →
      resolveRate payConfig t k = (c, "custom"))
    ∧ (alookup entry.customRates k = none →
      resolveRate payConfig t k = (entry.defaultRate, "default")) := by
  constructor
  · intro c hc hne
    simp [resolveRate, h, hc, hne]
  · intro hc
    simp [resolveRate, h, hc]

/-- Concrete instance of claim C7: default 100000, custom 150000 for
staff key "S1" and type "Play-by-play" resolves to 150000 / "custom"
(and to the default for a staff key with no custom rate). -/
theorem c7_rate_resolution_witness :
    resolveRate [("Play-by-play", { defaultRate := 100000, customRates := [("S1", 150000)] })]
      "Play-by-play" "S1" = (150000, "custom")
    ∧ resolveRate [("Play-by-play", { defaultRate := 100000, customRates := [("S1", 150000)] })]
      "Play-by-play" "S2" = (100000, "default") := by
  have h := c7_rate_resolution
    [("Play-by-play", { defaultRate := 100000, customRates := [("S1", 150000)] })]
    "Play-by-play" "S1" { defaultRate := 100000, customRates := [("S1", 150000)] } (by decide)
  have h2 := c7_rate_resolution
    [("Play-by-play", { defaultRate := 100000, customRates := [("S1", 150000)] })]
    "Play-by-play" "S2" { defaultRate := 100000, customRates := [("S1", 150000)] } (by decide)
  exact ⟨h.1 150000 (by decide) (by decide), h2.2 (by decide)⟩

/-! ### The unpaid-work selector -/

theorem unpaidAux_eq (i : Nat) (rows : List MasterRow) :
    unpaidAux i rows
      = ((List.enumFrom i rows).filter (fun p => isEligible p.2)).map
          (fun p => toWorkItem p.1 p.2) := by
  induction rows generalizing i with
  | nil => rfl
  | cons r rest ih =>
    by_cases h : isEligible r = true
    · simp [unpaidAux, h, List.filter_cons, ih]
    · simp [unpaidAux, h, List.filter_cons, ih]

/-- Claim C2: the unpaid-work selector returns exactly the ledger rows with
status "Done" whose Paid cell is neither "Paid" nor "Invoiced" (any other
value, blank and missing cells included, counts as unpaid), in ledger
order, as a pure filter of the ledger snapshot — it is a total function of
the snapshot, so it mutates nothing and cannot throw on blank or missing
fields. -/
theorem c2_selector_is_eligibility_filter (data : List MasterRow) :
    getUnpaidWorkFromMaster data
      = ((List.enumFrom 2 (data.drop 2)).filter (fun p => isEligible p.2)).map
          (fun p => toWorkItem p.1 p.2)
    ∧ ∀ r : MasterRow,
        isEligible r = (r.status == "Done" && r.paid != "Paid" && r.paid != "Invoiced") :=
  ⟨unpaidAux_eq 2 (data.drop 2), fun _ => rfl⟩

theorem unpaidAux_nil : ∀ (i : Nat) (rows : List MasterRow),
    (∀ r ∈ rows, isEligible r = false) → unpaidAux i rows = []
  | _, [], _ => rfl
  | i, r :: rest, h => by
    have hr := h r (by simp)
    have ih := unpaidAux_nil (i + 1) rest (fun x hx => h x (by simp [hx]))
    simp [unpaidAux, hr, ih]

theorem unpaidAux_mem_of_eligible : ∀ (i j : Nat) (rows : List MasterRow) (r : MasterRow),
    rows[j]? = some r → isEligible r = true → toWorkItem (i + j) r ∈ unpaidAux i rows
  | _, _, [], _, h, _ => by simp at h
  | i, 0, a :: _, r, h, he => by
    simp at h
    subst h
    simp [unpaidAux, he]
  | i, j + 1, a :: rest, r, h, he => by
    simp at h
    have ih := unpaidAux_mem_of_eligible (i + 1) j rest r h he
    have hswap : i + (j + 1) = (i + 1) + j := by omega
    rw [hswap]
    by_cases ha : isEligible a = true
    · simp only [unpaidAux, ha, if_true]
      exact List.mem_cons_of_mem _ ih
    · simp only [unpaidAux, ha, if_false]
      exact ih

/-! ### The ledger write-back -/

theorem modifyAt_length {α : Type} : ∀ (l : List α) (n : Nat) (f : α → α),
    (modifyAt l n f).length = l.length
  | [], _, _ => rfl
  | _ :: _, 0, _ => rfl
  | a :: l, n + 1, f => by simp [modifyAt, modifyAt_length l n f]

theorem getElem?_modifyAt_ne {α : Type} : ∀ (l : List α) (n m : Nat) (f : α → α),
    m ≠ n → (modifyAt l n f)[m]? = l[m]?
  | [], _, _, _, _ => rfl
  | _ :: _, 0, 0, _, h => absurd rfl h
  | _ :: _, 0, _ + 1, _, _ => by simp [modifyAt]
  | _ :: _, _ + 1, 0, _, _ => by simp [modifyAt]
  | a :: l, n + 1, m + 1, f, h => by
    simp only [modifyAt, List.getElem?_cons_succ]
    exact getElem?_modifyAt_ne l n m f (fun hh => h (by rw [hh]))

theorem getElem?_modifyAt_eq {α : Type} : ∀ (l : List α) (n : Nat) (f : α → α),
    (modifyAt l n f)[n]? = (l[n]?).map f
  | [], n, _ => by simp [modifyAt]
  | _ :: _, 0, _ => by simp [modifyAt]
  | a :: l, n + 1, f => by simp [modifyAt, getElem?_modifyAt_eq l n f]

theorem markWork_cons (w : WorkItem) (ws : List WorkItem) (ledger : List MasterRow) :
    markWorkAsInvoiced (w :: ws) ledger
      = markWorkAsInvoiced ws (modifyAt ledger (w.rowIndex - 1) setInvoiced) := rfl

theorem markWork_length : ∀ (ws : List WorkItem) (ledger : List MasterRow),
    (markWorkAsInvoiced ws ledger).length = ledger.length
  | [], _ => rfl
  | w :: ws, ledger => by
    rw [markWork_cons, markWork_length ws _, modifyAt_length]

theorem markWork_getElem? : ∀ (ws : List WorkItem) (ledger : List MasterRow) (j : Nat),
    (markWorkAsInvoiced ws ledger)[j]? = ledger[j]?
    ∨ (markWorkAsInvoiced ws ledger)[j]? = (ledger[j]?).map setInvoiced
  | [], _, _ => Or.inl rfl
  | w :: ws, ledger, j => by
    rw [markWork_cons]
    rcases markWork_getElem? ws (modifyAt ledger (w.rowIndex - 1) setInvoiced) j with h | h
    · by_cases hj : j = w.rowIndex - 1
      · subst hj
        right
        rw [h, getElem?_modifyAt_eq]
      · left
        rw [h, getElem?_modifyAt_ne _ _ _ _ hj]
    · by_cases hj : j = w.rowIndex - 1
      · subst hj
        right
        rw [h, getElem?_modifyAt_eq]
        cases hle : ledger[w.rowIndex - 1]? with
        | none => rfl
        | some r => simp [setInvoiced]
      · right
        rw [h, getElem?_modifyAt_ne _ _ _ _ hj]

theorem markWork_sets : ∀ (ws : List WorkItem) (ledger : List MasterRow) (w : WorkItem),
    w ∈ ws → w.rowIndex - 1 < ledger.length →
    ∃ r, (markWorkAsInvoiced ws ledger)[w.rowIndex - 1]? = some r ∧ r.paid = "Invoiced"
  | [], _, _, h, _ => absurd h (List.not_mem_nil _)
  | w0 :: ws, ledger, w, hmem, hlt => by
    rw [markWork_cons]
    rcases List.mem_cons.mp hmem with heq | hmem2
    · subst heq
      have hidx : (modifyAt ledger (w.rowIndex - 1) setInvoiced)[w.rowIndex - 1]?
          = (ledger[w.rowIndex - 1]?).map setInvoiced := getElem?_modifyAt_eq _ _ _
      obtain ⟨v, hv⟩ : ∃ v, ledger[w.rowIndex - 1]? = some v :=
        ⟨_, List.getElem?_eq_getElem hlt⟩
      rcases markWork_getElem? ws (modifyAt ledger (w.rowIndex - 1) setInvoiced)
          (w.rowIndex - 1) with h | h
      · refine ⟨setInvoiced v, ?_, rfl⟩
        rw [h, hidx, hv]
        rfl
      · refine ⟨setInvoiced (setInvoiced v), ?_, rfl⟩
        rw [h, hidx, hv]
        rfl
    · have hlt2 : w.rowIndex - 1 < (modifyAt ledger (w0.rowIndex - 1) setInvoiced).length := by
        rw [modifyAt_length]
        exact hlt
      exact markWork_sets ws _ w hmem2 hlt2

theorem isEligible_of_paid_invoiced (r : MasterRow) (h : r.paid = "Invoiced") :
    isEligible r = false := by
  simp [isEligible, h]

/-- After marking the selected unpaid work of a ledger as invoiced, the
selector finds nothing. -/
theorem unpaid_after_mark (ledger : List MasterRow) :
    getUnpaidWorkFromMaster
      (markWorkAsInvoiced (getUnpaidWorkFromMaster ledger) ledger) = [] := by
  apply unpaidAux_nil
  intro r hr
  rw [List.mem_iff_getElem?] at hr
  obtain ⟨j, hj⟩ := hr
  rw [List.getElem?_drop] at hj
  rcases markWork_getElem? (getUnpaidWorkFromMaster ledger) ledger (2 + j) with h | h
  · rw [hj] at h
    by_cases he : isEligible r = true
    · exfalso
      have hr2 : (ledger.drop 2)[j]? = some r := by
        rw [List.getElem?_drop]
        exact h.symm
      have hmem := unpaidAux_mem_of_eligible 2 j (ledger.drop 2) r hr2 he
      have hlen : 2 + j < ledger.length := (List.getElem?_eq_some_iff.mp h.symm).1
      have hlt : (toWorkItem (2 + j) r).rowIndex - 1 < ledger.length := by
        simpa [toWorkItem] using hlen
      obtain ⟨r2, hr2e, hr2p⟩ :=
        markWork_sets (getUnpaidWorkFromMaster ledger) ledger _ hmem hlt
      have hidx : (toWorkItem (2 + j) r).rowIndex - 1 = 2 + j := by
        simp [toWorkItem]
      rw [hidx, hj] at hr2e
      have hrr : r = r2 := by
        injection hr2e
      rw [← hrr] at hr2p
      rw [isEligible_of_paid_invoiced r hr2p] at he
      exact Bool.false_ne_true he
    · simpa using he
  · rw [hj] at h
    cases hl : ledger[2 + j]? with
    | none =>
      rw [hl] at h
      simp at h
    | some r0 =>
      rw [hl] at h
      simp only [Option.map_some'] at h
      have hrr : r = setInvoiced r0 := by
        injection h
      rw [hrr]
      exact isEligible_of_paid_invoiced _ rfl

/-! ### The commit path -/

/-- Claim C3: committing twice in sequence is idempotent — after a first
commit (whatever its outcome on this ledger state), the second invocation
selects no eligible items, returns the defined "No unpaid work found"
result, and leaves the ledger exactly as the first invocation left it. -/
theorem c3_commit_twice_idempotent (payConfig : List (String × PayEntry))
    (staffMapping : List (String × String)) (i1 d1 : String) (r1 : Nat)
    (i2 d2 : String) (r2 : Nat) (ok2 : Bool) (ledger : List MasterRow) :
    (handleCalculatePayRequest payConfig staffMapping i2 d2 r2 ok2
        (handleCalculatePayRequest payConfig staffMapping i1 d1 r1 true ledger).2).1
      = CommitResult.noUnpaidWork
    ∧ (handleCalculatePayRequest payConfig staffMapping i2 d2 r2 ok2
        (handleCalculatePayRequest payConfig staffMapping i1 d1 r1 true ledger).2).2
      = (handleCalculatePayRequest payConfig staffMapping i1 d1 r1 true ledger).2 := by
  have key : getUnpaidWorkFromMaster
      (handleCalculatePayRequest payConfig staffMapping i1 d1 r1 true ledger).2 = [] := by
    by_cases h : (getUnpaidWorkFromMaster ledger).isEmpty
    · have he : getUnpaidWorkFromMaster ledger = [] := List.isEmpty_iff.mp h
      simp [handleCalculatePayRequest, h, he]
    · simp [handleCalculatePayRequest, h, unpaid_after_mark]
  generalize hgen : (handleCalculatePayRequest payConfig staffMapping i1 d1 r1 true
      ledger).2 = L1 at key ⊢
  constructor <;> simp [handleCalculatePayRequest, key]

/-- Claim C5: in the commit path the ledger write comes strictly after
invoice creation — when invoice creation does not complete (it throws and
the `catch` returns the error response), the ledger is returned untouched
and no success response is produced. -/
theorem c5_ledger_untouched_on_invoice_failure (payConfig : List (String × PayEntry))
    (staffMapping : List (String × String)) (issuedAt dateStr : String) (rand : Nat)
    (ledger : List MasterRow) :
    (handleCalculatePayRequest payConfig staffMapping issuedAt dateStr rand false ledger).2
      = ledger
    ∧ ∀ (num : String) (rows : List InvoiceRow) (s : CommitSummary),
        (handleCalculatePayRequest payConfig staffMapping issuedAt dateStr rand false
          ledger).1 ≠ CommitResult.success num rows s := by
  by_cases h : (getUnpaidWorkFromMaster ledger).isEmpty <;>
    simp [handleCalculatePayRequest, h]

/-- Claim C4 is refuted: `markWorkAsInvoiced` re-checks nothing.  Here the
targeted row's current paidState is "Paid" (already claimed), yet the call
overwrites it to "Invoiced" instead of skipping it. -/
theorem c4_counterexample_overwrites_paid :
    claimedLedger[2]?
        = some { blankRow with assign := "K1", status := "Done", paid := "Paid" }
    ∧ (markWorkAsInvoiced [wPaid] claimedLedger)[2]?
        = some { blankRow with assign := "K1", status := "Done", paid := "Invoiced" } := by
  decide

/-- Claim C4 (amended): `markWorkAsInvoiced` performs no per-item re-check
of the current paidState — it unconditionally writes "Invoiced" into the
Paid cell of every item in its input list, overwriting rows whose
paidState is already "Paid" or "Invoiced" rather than skipping them. -/
theorem c4_amended_mark_is_unconditional (ws : List WorkItem) (ledger : List MasterRow)
    (w : WorkItem) (hmem : w ∈ ws) (hlt : w.rowIndex - 1 < ledger.length) :
    ∃ r, (markWorkAsInvoiced ws ledger)[w.rowIndex - 1]? = some r
      ∧ r.paid = "Invoiced" :=
  markWork_sets ws ledger w hmem hlt

/-- Concrete instance of the amended claim C4: the already-Paid row of
`claimedLedger` ends up "Invoiced". -/
theorem c4_amended_mark_is_unconditional_witness :
    ((markWorkAsInvoiced [wPaid] claimedLedger)[wPaid.rowIndex - 1]?).map
        (fun r => r.paid) = some "Invoiced" := by
  obtain ⟨r, hr, hp⟩ :=
    c4_amended_mark_is_unconditional [wPaid] claimedLedger wPaid (by decide) (by decide)
  rw [hr]
  simp [hp]

/-! ### The invoice-batch builder -/

/-- Claim C6: one invocation of `createInvoice` generates exactly one
invoice number — the "INV-" date prefix plus the zero-padded random
suffix, computed once before the row loop — and every emitted row carries
that same number. -/
theorem c6_one_invoice_number_per_call (payments : List (String × PaymentRecord))
    (issuedAt dateStr : String) (rand : Nat) :
    (createInvoice payments issuedAt dateStr rand).invoiceNumber
      = "INV-" ++ dateStr ++ "-" ++ padStart3 (toString rand)
    ∧ ∀ row ∈ (createInvoice payments issuedAt dateStr rand).rows,
        row.invoiceNumber = (createInvoice payments issuedAt dateStr rand).invoiceNumber := by
  constructor
  · rfl
  · intro row hrow
    simp only [createInvoice, List.mem_map] at hrow
    obtain ⟨p, _, hp⟩ := hrow
    rw [← hp]
    rfl

/-- Concrete instance of claim C6. -/
theorem c6_one_invoice_number_per_call_witness :
    (mkInvoiceRow "INV-20251011-007" "ts" exRecord).invoiceNumber
      = (createInvoice [("Alice", exRecord)] "ts" "20251011" 7).invoiceNumber :=
  (c6_one_invoice_number_per_call [("Alice", exRecord)] "ts" "20251011" 7).2
    (mkInvoiceRow "INV-20251011-007" "ts" exRecord) (by decide)

/-! ### Preview versus commit -/

/-- Claim C10 is refuted: the preview response's payments object is not
byte-identical to the calculation path's payments — the preview reshaping
drops each task's playbackLink (and doneDate) and adds a taskCount field,
so two ledgers differing only in a playback link give *distinct*
calculation-path payments but *identical* preview payments. -/
theorem c10_counterexample_preview_drops_fields :
    sanitizePayments (calculatePayments [mkWork 3 "K1" "T" "A"] [] []).payments
      = sanitizePayments (calculatePayments [mkWork 3 "K1" "T" "B"] [] []).payments
    ∧ (calculatePayments [mkWork 3 "K1" "T" "A"] [] []).payments
      ≠ (calculatePayments [mkWork 3 "K1" "T" "B"] [] []).payments := by
  decide

/-- Claim C10 (amended): for identical ledger and configuration input the
preview path computes exactly the same underlying payments as the
commit/calculation path (same selection, same `calculatePayments`), and
its response payments object is precisely the deterministic reshaping
`sanitizePayments` of that value (taskCount added; playbackLink and
doneDate dropped from each task) — a faithful projection rather than a
byte-identical copy. -/
theorem c10_amended_preview_is_sanitized_calculation
    (payConfig : List (String × PayEntry)) (staffMapping : List (String × String))
    (ledger : List MasterRow) :
    (handleCalculatePayPreviewRequest payConfig staffMapping ledger).map
        (fun r => r.payments)
      = (calculateStaffPay payConfig staffMapping ledger).map
        (fun r => sanitizePayments r.payments) := by
  by_cases h : (getUnpaidWorkFromMaster ledger).isEmpty <;>
    simp [handleCalculatePayPreviewRequest, calculateStaffPay, h]

/-! ### The payment aggregator -/

theorem tasksOf_nil : tasksOf [] = [] := rfl

theorem tasksOf_cons (p : String × PaymentRecord) (rest : List (String × PaymentRecord)) :
    tasksOf (p :: rest) = p.2.tasks ++ tasksOf rest := by
  simp [tasksOf]

theorem tasksOf_append (l : List (String × PaymentRecord)) (k : String)
    (rec : PaymentRecord) : tasksOf (l ++ [(k, rec)]) = tasksOf l ++ rec.tasks := by
  simp [tasksOf]

theorem amountOf_nil : amountOf [] = 0 := rfl

theorem amountOf_cons (p : String × PaymentRecord) (rest : List (String × PaymentRecord)) :
    amountOf (p :: rest) = p.2.totalAmount + amountOf rest := by
  simp [amountOf]

theorem amountOf_append (l : List (String × PaymentRecord)) (k : String)
    (rec : PaymentRecord) : amountOf (l ++ [(k, rec)]) = amountOf l + rec.totalAmount := by
  simp [amountOf]

theorem alookup_append_self {α : Type} : ∀ (l : List (String × α)) (k : String) (v : α),
    alookup l k = none → alookup (l ++ [(k, v)]) k = some v
  | [], k, v, _ => by simp [alookup]
  | p :: rest, k, v, h => by
    by_cases hp : p.1 = k
    · simp [alookup, hp] at h
    · simp only [List.cons_append, alookup, hp, if_false]
      exact alookup_append_self rest k v (by simpa [alookup, hp] using h)

theorem tasksOf_updateEntry : ∀ (l : List (String × PaymentRecord)) (k : String)
    (task : PaymentTask) (rate : Int), (alookup l k).isSome →
    (tasksOf (updateEntry l k (appendTask task rate))).Perm (tasksOf l ++ [task])
  | [], _, _, _, h => by simp [alookup] at h
  | p :: rest, k, task, rate, h => by
    by_cases hp : p.1 = k
    · simp only [updateEntry, hp, if_true, tasksOf_cons, appendTask]
      rw [List.append_assoc, List.append_assoc]
      exact List.Perm.append_left _ List.perm_append_comm
    · simp only [updateEntry, hp, if_false, tasksOf_cons]
      have ih := tasksOf_updateEntry rest k task rate (by simpa [alookup, hp] using h)
      rw [List.append_assoc]
      exact List.Perm.append_left _ ih

theorem amountOf_updateEntry : ∀ (l : List (String × PaymentRecord)) (k : String)
    (task : PaymentTask) (rate : Int), (alookup l k).isSome →
    amountOf (updateEntry l k (appendTask task rate)) = amountOf l + rate
  | [], _, _, _, h => by simp [alookup] at h
  | p :: rest, k, task, rate, h => by
    by_cases hp : p.1 = k
    · simp only [updateEntry, hp, if_true, amountOf_cons, appendTask]
      omega
    · simp only [updateEntry, hp, if_false, amountOf_cons]
      have ih := amountOf_updateEntry rest k task rate (by simpa [alookup, hp] using h)
      omega

theorem isSome_of_alookup_append {α : Type} (l : List (String × α)) (k : String) (v : α)
    (h : alookup l k = none) : (alookup (l ++ [(k, v)]) k).isSome = true := by
  rw [alookup_append_self l k v h]
  rfl

theorem upsert_tasks (ps : List (String × PaymentRecord)) (k : String)
    (rec0 : PaymentRecord) (task : PaymentTask) (rate : Int) (hrec : rec0.tasks = []) :
    (tasksOf (updateEntry (if (alookup ps k).isSome then ps else ps ++ [(k, rec0)]) k
        (appendTask task rate))).Perm (tasksOf ps ++ [task]) := by
  by_cases hb : (alookup ps k).isSome
  · simpa [hb] using tasksOf_updateEntry ps k task rate hb
  · have hnone : alookup ps k = none := Option.not_isSome_iff_eq_none.mp hb
    have h1 := tasksOf_updateEntry (ps ++ [(k, rec0)]) k task rate
      (isSome_of_alookup_append ps k rec0 hnone)
    rw [tasksOf_append, hrec, List.append_nil] at h1
    simpa [hb] using h1

theorem upsert_amount (ps : List (String × PaymentRecord)) (k : String)
    (rec0 : PaymentRecord) (task : PaymentTask) (rate : Int) (hrec : rec0.totalAmount = 0) :
    amountOf (updateEntry (if (alookup ps k).isSome then ps else ps ++ [(k, rec0)]) k
        (appendTask task rate)) = amountOf ps + rate := by
  by_cases hb : (alookup ps k).isSome
  · simpa [hb] using amountOf_updateEntry ps k task rate hb
  · have hnone : alookup ps k = none := Option.not_isSome_iff_eq_none.mp hb
    have h1 := amountOf_updateEntry (ps ++ [(k, rec0)]) k task rate
      (isSome_of_alookup_append ps k rec0 hnone)
    rw [amountOf_append, hrec] at h1
    simpa [hb] using h1

theorem calcStep_tasks (payConfig : List (String × PayEntry))
    (staffMapping : List (String × String)) (st : CalcState) (work : WorkItem) :
    (tasksOf (calcStep payConfig staffMapping st work).payments).Perm
      (tasksOf st.payments ++ [mkTask payConfig work]) := by
  have h := upsert_tasks st.payments (resolveLegalName staffMapping work.staffName)
    { staffKey := work.staffName
      legalName := resolveLegalName staffMapping work.staffName
      hasMapping := truthyStr (alookup staffMapping work.staffName)
      tasks := []
      totalAmount := 0 }
    (mkTask payConfig work) (resolveRate payConfig work.taskType work.staffName).1 rfl
  simpa [calcStep] using h

theorem calcStep_amount (payConfig : List (String × PayEntry))
    (staffMapping : List (String × String)) (st : CalcState) (work : WorkItem) :
    amountOf (calcStep payConfig staffMapping st work).payments
      = amountOf st.payments + (resolveRate payConfig work.taskType work.staffName).1 := by
  have h := upsert_amount st.payments (resolveLegalName staffMapping work.staffName)
    { staffKey := work.staffName
      legalName := resolveLegalName staffMapping work.staffName
      hasMapping := truthyStr (alookup staffMapping work.staffName)
      tasks := []
      totalAmount := 0 }
    (mkTask payConfig work) (resolveRate payConfig work.taskType work.staffName).1 rfl
  simpa [calcStep] using h

theorem calc_foldl_tasks (payConfig : List (String × PayEntry))
    (staffMapping : List (String × String)) : ∀ (data : List WorkItem) (st : CalcState),
    (tasksOf (data.foldl (calcStep payConfig staffMapping) st).payments).Perm
      (tasksOf st.payments ++ data.map (mkTask payConfig))
  | [], st => by simp
  | w :: ws, st => by
    simp only [List.foldl_cons, List.map_cons]
    have ih := calc_foldl_tasks payConfig staffMapping ws
      (calcStep payConfig staffMapping st w)
    have hstep := (calcStep_tasks payConfig staffMapping st w).append_right
      (ws.map (mkTask payConfig))
    simpa [List.append_assoc] using ih.trans hstep

theorem calc_foldl_amount (payConfig : List (String × PayEntry))
    (staffMapping : List (String × String)) : ∀ (data : List WorkItem) (st : CalcState),
    amountOf (data.foldl (calcStep payConfig staffMapping) st).payments
      = amountOf st.payments
        + (data.map (fun w => (resolveRate payConfig w.taskType w.staffName).1)).sum
  | [], st => by simp
  | w :: ws, st => by
    simp only [List.foldl_cons, List.map_cons, List.sum_cons]
    rw [calc_foldl_amount payConfig staffMapping ws _, calcStep_amount]
    omega

/-- Claim C1: `calculatePayments` never drops or duplicates a work item —
the concatenation of the tasks of all payment records is, as a multiset,
exactly the input (each input item lands in exactly one record's task
list) — and the sum of `totalAmount` over the records equals the sum of
each input item's resolved rate. -/
theorem c1_conservation (data : List WorkItem) (payConfig : List (String × PayEntry))
    (staffMapping : List (String × String)) :
    ((tasksOf (calculatePayments data payConfig staffMapping).payments).map
        (fun t => t.work)).Perm data
    ∧ amountOf (calculatePayments data payConfig staffMapping).payments
      = (data.map (fun w => (resolveRate payConfig w.taskType w.staffName).1)).sum := by
  constructor
  · have h := (calc_foldl_tasks payConfig staffMapping data
      { payments := []
        errors := { unmatchedTaskTypes := [], unmatchedStaffKeys := []
                    tasksWithNoRate := [] } }).map (fun t => t.work)
    rw [show tasksOf
        ({ payments := []
           errors := { unmatchedTaskTypes := [], unmatchedStaffKeys := []
                       tasksWithNoRate := [] } } : CalcState).payments = [] from rfl,
      List.nil_append, List.map_map] at h
    have hcomp : ((fun t : PaymentTask => t.work) ∘ mkTask payConfig)
        = fun w : WorkItem => w := by
      funext w
      rfl
    rw [hcomp] at h
    simpa [calculatePayments, tasksOf_nil] using h
  · have h := calc_foldl_amount payConfig staffMapping data
      { payments := []
        errors := { unmatchedTaskTypes := [], unmatchedStaffKeys := []
                    tasksWithNoRate := [] } }
    simpa [calculatePayments, amountOf_nil] using h

/-! ### Error accumulation in the aggregator -/

theorem mem_setAdd_self (l : List String) (s : String) : s ∈ setAdd l s := by
  unfold setAdd
  by_cases hs : s ∈ l <;> simp [hs]

theorem mem_setAdd_of_mem (l : List String) (s x : String) (h : x ∈ l) :
    x ∈ setAdd l s := by
  unfold setAdd
  by_cases hs : s ∈ l <;> simp [hs, h]

theorem setAdd_nodup (l : List String) (s : String) (h : l.Nodup) :
    (setAdd l s).Nodup := by
  unfold setAdd
  by_cases hs : s ∈ l
  · simpa [hs] using h
  · simp [hs, List.nodup_append, h, hs]

theorem calcStep_taskTypes (payConfig : List (String × PayEntry))
    (staffMapping : List (String × String)) (st : CalcState) (work : WorkItem) :
    (calcStep payConfig staffMapping st work).errors.unmatchedTaskTypes
      = if (alookup payConfig work.taskType).isSome then st.errors.unmatchedTaskTypes
        else setAdd st.errors.unmatchedTaskTypes work.taskType := by
  by_cases h1 : truthyStr (alookup staffMapping work.staffName) <;>
  by_cases h2 : (alookup payConfig work.taskType).isSome = true <;>
    simp [calcStep, h1, h2]

theorem calcStep_noRate (payConfig : List (String × PayEntry))
    (staffMapping : List (String × String)) (st : CalcState) (work : WorkItem) :
    (calcStep payConfig staffMapping st work).errors.tasksWithNoRate
      = if (alookup payConfig work.taskType).isSome then st.errors.tasksWithNoRate
        else st.errors.tasksWithNoRate ++ [noRateRec work] := by
  by_cases h1 : truthyStr (alookup staffMapping work.staffName) <;>
  by_cases h2 : (alookup payConfig work.taskType).isSome = true <;>
    simp [calcStep, h1, h2]

theorem calcStep_staffKeys (payConfig : List (String × PayEntry))
    (staffMapping : List (String × String)) (st : CalcState) (work : WorkItem) :
    (calcStep payConfig staffMapping st work).errors.unmatchedStaffKeys
      = if truthyStr (alookup staffMapping work.staffName) then
          st.errors.unmatchedStaffKeys
        else setAdd st.errors.unmatchedStaffKeys work.staffName := by
  by_cases h1 : truthyStr (alookup staffMapping work.staffName) <;>
  by_cases h2 : (alookup payConfig work.taskType).isSome = true <;>
    simp [calcStep, h1, h2]

theorem calc_foldl_taskTypes_nodup (payConfig : List (String × PayEntry))
    (staffMapping : List (String × String)) : ∀ (data : List WorkItem) (st : CalcState),
    st.errors.unmatchedTaskTypes.Nodup →
    (data.foldl (calcStep payConfig staffMapping) st).errors.unmatchedTaskTypes.Nodup
  | [], _, h => h
  | w :: ws, st, h => by
    simp only [List.foldl_cons]
    apply calc_foldl_taskTypes_nodup payConfig staffMapping ws
    rw [calcStep_taskTypes]
    by_cases h2 : (alookup payConfig w.taskType).isSome = true
    · simpa [h2] using h
    · simpa [h2] using setAdd_nodup _ _ h

theorem calc_foldl_taskTypes_mono (payConfig : List (String × PayEntry))
    (staffMapping : List (String × String)) : ∀ (data : List WorkItem) (st : CalcState)
    (x : String), x ∈ st.errors.unmatchedTaskTypes →
    x ∈ (data.foldl (calcStep payConfig staffMapping) st).errors.unmatchedTaskTypes
  | [], _, _, h => h
  | w :: ws, st, x, h => by
    simp only [List.foldl_cons]
    apply calc_foldl_taskTypes_mono payConfig staffMapping ws
    rw [calcStep_taskTypes]
    by_cases h2 : (alookup payConfig w.taskType).isSome = true
    · simpa [h2] using h
    · simpa [h2] using mem_setAdd_of_mem _ _ _ h

theorem calc_foldl_taskTypes_mem (payConfig : List (String × PayEntry))
    (staffMapping : List (String × String)) : ∀ (data : List WorkItem) (st : CalcState)
    (w : WorkItem), w ∈ data → alookup payConfig w.taskType = none →
    w.taskType ∈ (data.foldl (calcStep payConfig staffMapping) st).errors.unmatchedTaskTypes
  | [], _, _, h, _ => absurd h (List.not_mem_nil _)
  | w0 :: ws, st, w, hmem, hnone => by
    simp only [List.foldl_cons]
    rcases List.mem_cons.mp hmem with heq | h2
    · subst heq
      apply calc_foldl_taskTypes_mono payConfig staffMapping ws
      rw [calcStep_taskTypes, hnone]
      simpa using mem_setAdd_self _ _
    · exact calc_foldl_taskTypes_mem payConfig staffMapping ws _ w h2 hnone

theorem calc_foldl_staffKeys_mono (payConfig : List (String × PayEntry))
    (staffMapping : List (String × String)) : ∀ (data : List WorkItem) (st : CalcState)
    (x : String), x ∈ st.errors.unmatchedStaffKeys →
    x ∈ (data.foldl (calcStep payConfig staffMapping) st).errors.unmatchedStaffKeys
  | [], _, _, h => h
  | w :: ws, st, x, h => by
    simp only [List.foldl_cons]
    apply calc_foldl_staffKeys_mono payConfig staffMapping ws
    rw [calcStep_staffKeys]
    by_cases h1 : truthyStr (alookup staffMapping w.staffName) = true
    · simpa [h1] using h
    · simpa [h1] using mem_setAdd_of_mem _ _ _ h

theorem calc_foldl_staffKeys_mem (payConfig : List (String × PayEntry))
    (staffMapping : List (String × String)) : ∀ (data : List WorkItem) (st : CalcState)
    (w : WorkItem), w ∈ data → truthyStr (alookup staffMapping w.staffName) = false →
    w.staffName ∈ (data.foldl (calcStep payConfig staffMapping) st).errors.unmatchedStaffKeys
  | [], _, _, h, _ => absurd h (List.not_mem_nil _)
  | w0 :: ws, st, w, hmem, hfalse => by
    simp only [List.foldl_cons]
    rcases List.mem_cons.mp hmem with heq | h2
    · subst heq
      apply calc_foldl_staffKeys_mono payConfig staffMapping ws
      rw [calcStep_staffKeys, hfalse]
      simpa using mem_setAdd_self _ _
    · exact calc_foldl_staffKeys_mem payConfig staffMapping ws _ w h2 hfalse

theorem calc_foldl_noRate_len (payConfig : List (String × PayEntry))
    (staffMapping : List (String × String)) : ∀ (data : List WorkItem) (st : CalcState),
    (data.foldl (calcStep payConfig staffMapping) st).errors.tasksWithNoRate.length
      = st.errors.tasksWithNoRate.length
        + (data.filter (fun w => (alookup payConfig w.taskType).isNone)).length
  | [], _ => by simp
  | w :: ws, st => by
    simp only [List.foldl_cons]
    rw [calc_foldl_noRate_len payConfig staffMapping ws _, calcStep_noRate]
    cases halo : alookup payConfig w.taskType with
    | some e => simp [halo, List.filter_cons]
    | none => simp [halo, List.filter_cons]; omega

theorem mem_tasksOf (t : PaymentTask) (ps : List (String × PaymentRecord))
    (h : t ∈ tasksOf ps) : ∃ p ∈ ps, t ∈ p.2.tasks := by
  simp only [tasksOf, List.mem_flatten, List.mem_map] at h
  obtain ⟨l, ⟨p, hp, hl⟩, ht⟩ := h
  exact ⟨p, hp, by rw [hl]; exact ht⟩

/-- Claim C8: an item whose task type has no rate entry resolves to rate 0
with rateSource "none"; its task type is recorded in the deduplicated
`errors.unmatchedTaskTypes`; one descriptive record per such item is
appended to `errors.tasksWithNoRate`; and the item is still aggregated
into a payment record (accumulating the errors never aborts the batch —
`calculatePayments` is a total function that always returns the full
result). -/
theorem c8_missing_rate_type (data : List WorkItem) (payConfig : List (String × PayEntry))
    (staffMapping : List (String × String)) :
    (calculatePayments data payConfig staffMapping).errors.unmatchedTaskTypes.Nodup
    ∧ (calculatePayments data payConfig staffMapping).errors.tasksWithNoRate.length
      = (data.filter (fun w => (alookup payConfig w.taskType).isNone)).length
    ∧ ∀ w ∈ data, alookup payConfig w.taskType = none →
        resolveRate payConfig w.taskType w.staffName = (0, "none")
        ∧ w.taskType
            ∈ (calculatePayments data payConfig staffMapping).errors.unmatchedTaskTypes
        ∧ ∃ p ∈ (calculatePayments data payConfig staffMapping).payments,
            ∃ t ∈ p.2.tasks, t.work = w ∧ t.rate = 0 ∧ t.rateSource = "none"
              ∧ t.hasValidRate = false := by
  refine ⟨?_, ?_, ?_⟩
  · exact calc_foldl_taskTypes_nodup payConfig staffMapping data _ List.nodup_nil
  · simpa using calc_foldl_noRate_len payConfig staffMapping data
      { payments := []
        errors := { unmatchedTaskTypes := [], unmatchedStaffKeys := []
                    tasksWithNoRate := [] } }
  · intro w hw hnone
    refine ⟨by simp [resolveRate, hnone], ?_, ?_⟩
    · exact calc_foldl_taskTypes_mem payConfig staffMapping data _ w hw hnone
    · have hperm := calc_foldl_tasks payConfig staffMapping data
        { payments := []
          errors := { unmatchedTaskTypes := [], unmatchedStaffKeys := []
                      tasksWithNoRate := [] } }
      have hmemmap : mkTask payConfig w
          ∈ tasksOf ((calculatePayments data payConfig staffMapping).payments) := by
        apply hperm.mem_iff.mpr
        simpa using Or.inr (List.mem_map_of_mem (mkTask payConfig) hw)
      obtain ⟨p, hp, ht⟩ := mem_tasksOf _ _ hmemmap
      refine ⟨p, hp, mkTask payConfig w, ht, rfl, ?_, ?_, ?_⟩
      · simp [mkTask, resolveRate, hnone]
      · simp [mkTask, resolveRate, hnone]
      · simp [mkTask, resolveRate, hnone]

/-- Concrete instance of claim C8: a task type absent from the rate table
resolves to (0, "none") and is recorded. -/
theorem c8_missing_rate_type_witness :
    resolveRate [] "Unknown" "K1" = (0, "none")
    ∧ "Unknown" ∈ (calculatePayments [mkWork 3 "K1" "Unknown" "p"] []
        []).errors.unmatchedTaskTypes := by
  have h := (c8_missing_rate_type [mkWork 3 "K1" "Unknown" "p"] [] []).2.2
    (mkWork 3 "K1" "Unknown" "p") (by simp) rfl
  exact ⟨h.1, h.2.1⟩

/-- Claim C9: aggregation groups by the resolved legal name (the staff
directory's name for the staff key, with fallback to the raw staff key
when the lookup misses, the miss being recorded in
`errors.unmatchedStaffKeys`): two items with different staff keys that
resolve to the same legal name land in one single payment record holding
both tasks, whose staffKey and hasMapping fields come from the first-seen
item. -/
theorem c9_grouping_by_legal_name (w1 w2 : WorkItem)
    (payConfig : List (String × PayEntry)) (staffMapping : List (String × String))
    (_hne : w1.staffName ≠ w2.staffName)
    (hsame : resolveLegalName staffMapping w2.staffName
      = resolveLegalName staffMapping w1.staffName) :
    (∃ rec, (calculatePayments [w1, w2] payConfig staffMapping).payments
        = [(resolveLegalName staffMapping w1.staffName, rec)]
      ∧ rec.tasks.length = 2
      ∧ rec.staffKey = w1.staffName
      ∧ rec.legalName = resolveLegalName staffMapping w1.staffName
      ∧ rec.hasMapping = truthyStr (alookup staffMapping w1.staffName))
    ∧ (∀ k, alookup staffMapping k = none → resolveLegalName staffMapping k = k)
    ∧ (alookup staffMapping w1.staffName = none →
        w1.staffName ∈ (calculatePayments [w1, w2] payConfig
          staffMapping).errors.unmatchedStaffKeys) := by
  refine ⟨?_, ?_, ?_⟩
  · refine ⟨{ staffKey := w1.staffName
              legalName := resolveLegalName staffMapping w1.staffName
              hasMapping := truthyStr (alookup staffMapping w1.staffName)
              tasks := [mkTask payConfig w1, mkTask payConfig w2]
              totalAmount := (resolveRate payConfig w1.taskType w1.staffName).1
                + (resolveRate payConfig w2.taskType w2.staffName).1 }, ?_, rfl, rfl,
      rfl, rfl⟩
    simp [calculatePayments, calcStep, hsame, alookup, updateEntry, appendTask]
  · intro k hk
    simp [resolveLegalName, hk]
  · intro hnone
    apply calc_foldl_staffKeys_mem payConfig staffMapping [w1, w2] _ w1 (by simp)
    simp [truthyStr, hnone]

/-- Concrete instance of claim C9: keys "K1" and "K2" both map to "Alice"
and merge into one record with two tasks, keyed by the first-seen item. -/
theorem c9_grouping_by_legal_name_witness :
    ((calculatePayments [mkWork 3 "K1" "T" "p", mkWork 4 "K2" "T" "q"] []
        [("K1", "Alice"), ("K2", "Alice")]).payments.map
      (fun p => (p.1, p.2.tasks.length, p.2.staffKey, p.2.hasMapping)))
      = [("Alice", 2, "K1", true)] := by
  obtain ⟨⟨rec, h1, h2, h3, h4, h5⟩, _, _⟩ :=
    c9_grouping_by_legal_name (mkWork 3 "K1" "T" "p") (mkWork 4 "K2" "T" "q") []
      [("K1", "Alice"), ("K2", "Alice")] (by decide) (by decide)
  rw [h1]
  simp only [List.map_cons, List.map_nil, h2, h3, h5]
  decide

end StaffPayer
